import Mathlib

/-!
Verification of OpenStack Nova's simple tenant usage reporting module
(`nova/api/openstack/compute/plugins/v3/simple_tenant_usage.py`).

Modelling conventions:
* Timestamps (`datetime.datetime`) are microseconds since an arbitrary epoch,
  as `Int`.  Python `timedelta` normalisation (`days`, `seconds`,
  `microseconds`) is expressed with Lean's `Int` floor division and modulus,
  which agree with Python `//` and `%` for the positive divisors used here.
* Billable hours and running totals are exact rationals `ℚ` (the Python code
  uses floats; all claims here are about the arithmetic expressions, which we
  model exactly).
* Loosely-typed instance / flavor dicts become structures; the
  `system_metadata` flavor snapshot read by `flavors.extract_flavor` becomes
  an `Option Flavor` field (`none` = the `KeyError` branch).
* Exceptions become `Except`: the re-raised `KeyError` of `_get_flavor` and
  the `TypeError` of `datetime - None` in the uptime computation.
* External collaborators (flavor catalog, active-instance lookup) are
  function parameters; textual datetime parsing (`_parse_datetime`) is
  abstracted to its outcome, an `Option Int` (`none` = no accepted format
  matched).
-/

namespace SimpleTenantUsage

/-- A flavor record: the resource-shape fields read by the controller. -/
structure Flavor where
  name : String
  memory_mb : Nat
  root_gb : Nat
  ephemeral_gb : Nat
  vcpus : Nat
deriving DecidableEq

/-- The fields of an instance record read by the controller.
`embedded_flavor` is the flavor snapshot in `system_metadata` that
`flavors.extract_flavor` reads; `none` models the `KeyError` case. -/
structure Instance where
  uuid : String
  display_name : String
  project_id : String
  launched_at : Option Int
  terminated_at : Option Int
  vm_state : String
  deleted : Bool
  instance_type_id : Nat
  embedded_flavor : Option Flavor
deriving DecidableEq

/-- `timedelta.days` of a delta of `dt` microseconds (Python floor division). -/
def tdDays (dt : Int) : Int := dt / 86400000000

/-- `timedelta.seconds` of a delta of `dt` microseconds. -/
def tdSeconds (dt : Int) : Int := (dt % 86400000000) / 1000000

/-- `timedelta.microseconds` of a delta of `dt` microseconds. -/
def tdMicroseconds (dt : Int) : Int := dt % 1000000

/-- `dt.days * 3600 * 24 + dt.seconds + dt.microseconds / 100000.0`
(line 66-67 of the source; note the 100000 divisor). -/
def elapsedSeconds (dt : Int) : ℚ :=
  ((tdDays dt * 3600 * 24 + tdSeconds dt : ℤ) : ℚ) +
    ((tdMicroseconds dt : ℤ) : ℚ) / 100000

/-- `terminated_at and terminated_at < period_start` (datetimes are truthy,
so truthiness is just presence). -/
def termBefore : Option Int → Int → Bool
  | some terminated, period_start => decide (terminated < period_start)
  | none, _ => false

/-- `launched_at and launched_at > period_stop`. -/
def launchAfter : Option Int → Int → Bool
  | some launched, period_stop => decide (launched > period_stop)
  | none, _ => false

/-- The `stop` bound of the effective interval: `min(period_stop,
terminated_at)` when terminated, else `period_stop`. -/
def effective_stop : Option Int → Int → Int
  | some terminated, period_stop => min period_stop terminated
  | none, period_stop => period_stop

/-- `SimpleTenantUsageController._hours_for` (string-vs-datetime
normalisation is upstream of the integer time representation). -/
def hours_for (inst : Instance) (period_start period_stop : Int) : ℚ :=
  if termBefore inst.terminated_at period_start then 0
  else if launchAfter inst.launched_at period_stop then 0
  else
    match inst.launched_at with
    | some launched =>
      let start := max launched period_start
      let stop := effective_stop inst.terminated_at period_stop
      elapsedSeconds (stop - start) / 3600
    | none => 0

/-- The exceptions the aggregation loop can raise: the `KeyError` re-raised
by `_get_flavor` for a non-deleted instance without an embedded flavor, and
the `TypeError` of subtracting `None` in the uptime computation. -/
inductive AggError where
  | keyError
  | typeError
deriving DecidableEq

/-- The flavor catalog collaborator: `compute_api.get_instance_type`,
`none` modelling `exception.FlavorNotFound`. -/
abbrev Catalog := Nat → Option Flavor

/-- The per-run `flavors_cache` dict, keyed by `instance_type_id`. -/
abbrev FlavorCache := List (Nat × Flavor)

/-- `SimpleTenantUsageController._get_flavor`: prefer the embedded snapshot;
on `KeyError` re-raise unless the instance is deleted; else consult the
cache, then the catalog (caching only successful lookups); `FlavorNotFound`
yields `none` ("skip this instance"). -/
def get_flavor (catalog : Catalog) (inst : Instance) (cache : FlavorCache) :
    Except AggError (Option Flavor × FlavorCache) :=
  match inst.embedded_flavor with
  | some f => .ok (some f, cache)
  | none =>
    if !inst.deleted then .error .keyError
    else
      match cache.lookup inst.instance_type_id with
      | some f => .ok (some f, cache)
      | none =>
        match catalog inst.instance_type_id with
        | some f => .ok (some f, (inst.instance_type_id, f) :: cache)
        | none => .ok (none, cache)

/-- One `info` dict built by `_tenant_usages_for_period` for an instance. -/
structure ServerUsage where
  hours : ℚ
  instance_id : String
  name : String
  memory_mb : Nat
  local_gb : Nat
  vcpus : Nat
  tenant_id : String
  flavor : String
  started_at : Option Int
  ended_at : Option Int
  state : String
  uptime : Int
deriving DecidableEq

/-- One per-tenant summary dict.  `server_usages` is `some` exactly when the
run is detailed (the key is only created then). -/
structure Summary where
  tenant_id : String
  server_usages : Option (List ServerUsage)
  total_local_gb_usage : ℚ
  total_vcpus_usage : ℚ
  total_memory_mb_usage : ℚ
  total_hours : ℚ
  start : Int
  stop : Int
deriving DecidableEq

/-- Python `datetime - datetime`; a `None` operand raises `TypeError`. -/
def subTime : Option Int → Option Int → Except AggError Int
  | some a, some b => .ok (a - b)
  | _, _ => .error .typeError

/-- Lines 119-146: build the `info` record for one instance whose flavor
resolved, including the `uptime` computation from `started_at`. -/
def serverUsageFor (inst : Instance) (flavor : Flavor) (hours : ℚ)
    (now : Int) : Except AggError ServerUsage :=
  let state := match inst.terminated_at with
    | some _ => "terminated"
    | none => inst.vm_state
  match (if state = "terminated"
         then subTime inst.terminated_at inst.launched_at
         else subTime (some now) inst.launched_at) with
  | .error e => .error e
  | .ok delta =>
    .ok { hours := hours,
          instance_id := inst.uuid,
          name := inst.display_name,
          memory_mb := flavor.memory_mb,
          local_gb := flavor.root_gb + flavor.ephemeral_gb,
          vcpus := flavor.vcpus,
          tenant_id := inst.project_id,
          flavor := flavor.name,
          started_at := inst.launched_at,
          ended_at := inst.terminated_at,
          state := state,
          uptime := tdDays delta * 24 * 3600 + tdSeconds delta }

/-- The `rval` dict, as an association list in first-seen order. -/
abbrev Rval := List (String × Summary)

/-- The fresh summary created the first time a tenant is seen. -/
def emptySummary (tenant_id : String) (detailed : Bool)
    (period_start period_stop : Int) : Summary :=
  { tenant_id := tenant_id,
    server_usages := if detailed then some [] else none,
    total_local_gb_usage := 0,
    total_vcpus_usage := 0,
    total_memory_mb_usage := 0,
    total_hours := 0,
    start := period_start,
    stop := period_stop }

/-- Lines 162-169: accumulate one `info` into its tenant's summary. -/
def accumulate (detailed : Bool) (u : ServerUsage) (s : Summary) : Summary :=
  { s with
    total_local_gb_usage := s.total_local_gb_usage + (u.local_gb : ℚ) * u.hours,
    total_vcpus_usage := s.total_vcpus_usage + (u.vcpus : ℚ) * u.hours,
    total_memory_mb_usage :=
      s.total_memory_mb_usage + (u.memory_mb : ℚ) * u.hours,
    total_hours := s.total_hours + u.hours,
    server_usages :=
      if detailed then s.server_usages.map (fun l => l ++ [u])
      else s.server_usages }

/-- In-place update of one tenant's summary in `rval`. -/
def updateRval (tenant_id : String) (f : Summary → Summary) : Rval → Rval
  | [] => []
  | (k, s) :: rest =>
    if k = tenant_id then (k, f s) :: rest
    else (k, s) :: updateRval tenant_id f rest

/-- One iteration of the `for instance in instances` loop of
`_tenant_usages_for_period`. -/
def processInstance (catalog : Catalog) (period_start period_stop now : Int)
    (detailed : Bool) (st : Rval × FlavorCache) (inst : Instance) :
    Except AggError (Rval × FlavorCache) :=
  let hours := hours_for inst period_start period_stop
  match get_flavor catalog inst st.2 with
  | .error e => .error e
  | .ok (none, cache) => .ok (st.1, cache)
  | .ok (some flavor, cache) =>
    match serverUsageFor inst flavor hours now with
    | .error e => .error e
    | .ok u =>
      let rval :=
        if (st.1.lookup u.tenant_id).isNone then
          st.1 ++ [(u.tenant_id,
                    emptySummary u.tenant_id detailed period_start period_stop)]
        else st.1
      .ok (updateRval u.tenant_id (accumulate detailed u) rval, cache)

/-- `SimpleTenantUsageController._tenant_usages_for_period`, given the list
the `get_active_by_window` collaborator returned. -/
def tenant_usages_for_period (catalog : Catalog)
    (period_start period_stop now : Int) (detailed : Bool)
    (instances : List Instance) : Except AggError (List Summary) :=
  match instances.foldlM
      (processInstance catalog period_start period_stop now detailed)
      ([], []) with
  | .error e => .error e
  | .ok st => .ok (st.1.map Prod.snd)

/-- Errors surfaced by the request handlers: `HTTPBadRequest` with its
explanation message, or a propagated aggregation exception. -/
inductive HandlerError where
  | badRequest (msg : String)
  | internal (e : AggError)
deriving DecidableEq

/-- The explanation of the start/end ordering rejection (lines 200-201). -/
def startAfterEndMsg : String :=
  "Invalid start time. The start time cannot occur after the end time."

/-- `SimpleTenantUsageController._get_datetime_range`, given the outcomes of
`_parse_datetime` on the `start` and `end` query values (`none` = no accepted
format matched) and the parsed `detailed` flag. -/
def get_datetime_range (period_start period_stop : Option Int)
    (detailed : Bool) : Except HandlerError (Int × Int × Bool) :=
  match period_start with
  | none => .error (.badRequest "Start time is invalid format")
  | some ps =>
    match period_stop with
    | none => .error (.badRequest "Stop time is invalid format")
    | some pe =>
      if ps < pe then .ok (ps, pe, detailed)
      else .error (.badRequest startAfterEndMsg)

/-- The `compute_api.get_active_by_window` collaborator: window start, window
stop, optional tenant filter. -/
abbrev Lookup := Int → Int → Option String → List Instance

/-- `SimpleTenantUsageController.index` after authorization: parse and
validate the range, clip `period_stop` to `now`, fetch instances (no tenant
filter) and aggregate. -/
def index (lookup : Lookup) (catalog : Catalog) (now : Int)
    (start stop : Option Int) (detailed : Bool) :
    Except HandlerError (List Summary) :=
  match get_datetime_range start stop detailed with
  | .error e => .error e
  | .ok (period_start, period_stop, det) =>
    let period_stop := if period_stop > now then now else period_stop
    match tenant_usages_for_period catalog period_start period_stop now det
        (lookup period_start period_stop none) with
    | .ok usages => .ok usages
    | .error e => .error (.internal e)

/-- `SimpleTenantUsageController.show` after authorization: same range
handling (parsed `detailed` flag ignored), tenant-filtered lookup, always
detailed; `usage[0]` if non-empty else the empty dict (`none`). -/
def show' (lookup : Lookup) (catalog : Catalog) (now : Int)
    (tenant_id : String) (start stop : Option Int) (detailed : Bool) :
    Except HandlerError (Option Summary) :=
  match get_datetime_range start stop detailed with
  | .error e => .error e
  | .ok (period_start, period_stop, _) =>
    let period_stop := if period_stop > now then now else period_stop
    match tenant_usages_for_period catalog period_start period_stop now true
        (lookup period_start period_stop (some tenant_id)) with
    | .ok usage => .ok usage.head?
    | .error e => .error (.internal e)

/-! ## Concrete records used in witnesses and counterexamples -/

def wFlavor : Flavor :=
  { name := "m1.small", memory_mb := 512, root_gb := 10, ephemeral_gb := 20,
    vcpus := 2 }

/-- Launched six hours in, still running. -/
def wRunning : Instance :=
  { uuid := "uuid-1", display_name := "vm-1", project_id := "tenant-a",
    launched_at := some 21600000000, terminated_at := none,
    vm_state := "active", deleted := false, instance_type_id := 1,
    embedded_flavor := some wFlavor }

/-- Launched exactly at epoch 0, still running. -/
def wLaunchedAtZero : Instance :=
  { wRunning with launched_at := some 0 }

/-- Never launched. -/
def wNeverLaunched : Instance :=
  { wRunning with launched_at := none }

/-- A deleted legacy instance with no embedded flavor snapshot. -/
def wLegacyDeleted : Instance :=
  { wRunning with deleted := true, embedded_flavor := none,
                  instance_type_id := 7 }

/-- Launched at epoch 0, terminated after one hour. -/
def wTerminated : Instance :=
  { wRunning with launched_at := some 0, terminated_at := some 3600000000 }

/-- The detail entry the aggregator builds for `wTerminated` over the
window from 0 to two hours. -/
def wUsage : ServerUsage :=
  { hours := 1, instance_id := "uuid-1", name := "vm-1", memory_mb := 512,
    local_gb := 30, vcpus := 2, tenant_id := "tenant-a",
    flavor := "m1.small", started_at := some 0,
    ended_at := some 3600000000, state := "terminated", uptime := 3600 }

/-- The tenant summary the aggregator builds for `wTerminated` over the
window from 0 to two hours. -/
def wSummary : Summary :=
  { tenant_id := "tenant-a", server_usages := some [wUsage],
    total_local_gb_usage := 30, total_vcpus_usage := 2,
    total_memory_mb_usage := 512, total_hours := 1,
    start := 0, stop := 7200000000 }

/-- A summary's stored totals agree with the sums over its detail list:
`total_hours` is the sum of the entries' hours and each resource total is
the sum of hours times that entry's copied shape attribute. -/
def summaryConsistent (s : Summary) : Prop :=
  ∃ l, s.server_usages = some l ∧
    s.total_hours = (l.map ServerUsage.hours).sum ∧
    s.total_vcpus_usage = (l.map (fun u => (u.vcpus : ℚ) * u.hours)).sum ∧
    s.total_memory_mb_usage
      = (l.map (fun u => (u.memory_mb : ℚ) * u.hours)).sum ∧
    s.total_local_gb_usage
      = (l.map (fun u => (u.local_gb : ℚ) * u.hours)).sum

/-! ## Theorems about the hours calculator -/

theorem elapsedSeconds_nonneg (dt : Int) (h : 0 ≤ dt) :
    0 ≤ elapsedSeconds dt := by
  have h1 : 0 ≤ tdDays dt * 3600 * 24 + tdSeconds dt := by
    unfold tdDays tdSeconds; omega
  have h2 : 0 ≤ tdMicroseconds dt := by
    unfold tdMicroseconds; omega
  unfold elapsedSeconds
  apply add_nonneg
  · exact_mod_cast h1
  · apply div_nonneg
    · exact_mod_cast h2
    · norm_num

/-- C3: the hours calculator returns 0 when the instance terminated before
the window start, or launched after the window stop, or never launched. -/
theorem hours_for_zero_outside_window (inst : Instance) (ps pe : ℤ)
    (h : (∃ t, inst.terminated_at = some t ∧ t < ps) ∨
         (∃ l, inst.launched_at = some l ∧ pe < l) ∨
         inst.launched_at = none) :
    hours_for inst ps pe = 0 := by
  rcases h with ⟨t, ht, hlt⟩ | ⟨l, hl, hlt⟩ | hl
  · simp [hours_for, termBefore, ht, hlt]
  · cases hb : termBefore inst.terminated_at ps with
    | true => simp [hours_for, hb]
    | false => simp [hours_for, hb, launchAfter, hl, hlt]
  · cases hb : termBefore inst.terminated_at ps with
    | true => simp [hours_for, hb]
    | false => simp [hours_for, hb, launchAfter, hl]

theorem hours_for_zero_outside_window_witness :
    ((∃ t, wNeverLaunched.terminated_at = some t ∧ t < (0 : Int)) ∨
      (∃ l, wNeverLaunched.launched_at = some l ∧ (86400000000 : Int) < l) ∨
      wNeverLaunched.launched_at = none) ∧
    hours_for wNeverLaunched 0 86400000000 = 0 :=
  ⟨Or.inr (Or.inr rfl),
   hours_for_zero_outside_window wNeverLaunched 0 86400000000
     (Or.inr (Or.inr rfl))⟩

/-- C9: on consistent records (launch ≤ termination when both present) and a
well-formed window, the hours calculator never returns a negative value. -/
theorem hours_for_nonneg (inst : Instance) (ps pe : ℤ)
    (hcons : ∀ l t, inst.launched_at = some l →
      inst.terminated_at = some t → l ≤ t)
    (hwin : ps < pe) :
    0 ≤ hours_for inst ps pe := by
  unfold hours_for
  cases hb : termBefore inst.terminated_at ps with
  | true => simp
  | false =>
    cases hb2 : launchAfter inst.launched_at pe with
    | true => simp
    | false =>
      cases hl : inst.launched_at with
      | none => simp
      | some l =>
        simp only [Bool.false_eq_true, if_false]
        apply div_nonneg _ (by norm_num : (0:ℚ) ≤ 3600)
        apply elapsedSeconds_nonneg
        have hle : l ≤ pe := by
          rw [hl] at hb2
          simp only [launchAfter, decide_eq_false_iff_not, not_lt] at hb2
          exact hb2
        cases ht : inst.terminated_at with
        | none =>
          simp only [ht, effective_stop]
          exact sub_nonneg.mpr (max_le hle hwin.le)
        | some t =>
          have hts : ps ≤ t := by
            rw [ht] at hb
            simp only [termBefore, decide_eq_false_iff_not, not_lt] at hb
            exact hb
          have hlt : l ≤ t := hcons l t hl ht
          simp only [ht, effective_stop]
          exact sub_nonneg.mpr (le_min (max_le hle hwin.le) (max_le hlt hts))

theorem hours_for_nonneg_witness :
    (0 : Int) < 86400000000 ∧ 0 ≤ hours_for wRunning 0 86400000000 :=
  ⟨by norm_num,
   hours_for_nonneg wRunning 0 86400000000
     (fun l t _ ht => absurd ht (by simp [wRunning])) (by norm_num)⟩

/-- C1: whenever the effective billable interval decomposes as d days,
s whole seconds and m microseconds (the timedelta normalisation), the hours
calculator returns ((d*86400 + s + m/100000)/3600): the microsecond
component is divided by 100000, not 1000000. -/
theorem hours_for_microsecond_divisor (inst : Instance) (ps pe l : ℤ)
    (d s m : ℤ)
    (hl : inst.launched_at = some l)
    (hterm : ∀ t, inst.terminated_at = some t → ps ≤ t)
    (hle : l ≤ pe)
    (hs0 : 0 ≤ s) (hs : s < 86400) (hm0 : 0 ≤ m) (hm : m < 1000000)
    (hdt : effective_stop inst.terminated_at pe - max l ps
            = d * 86400000000 + s * 1000000 + m) :
    hours_for inst ps pe
      = (((d : ℚ) * 86400 + (s : ℚ)) + (m : ℚ) / 100000) / 3600 := by
  have htb : termBefore inst.terminated_at ps = false := by
    cases ht : inst.terminated_at with
    | none => rfl
    | some t => simpa [termBefore] using hterm t ht
  have hla : launchAfter (some l) pe = false := by
    simp only [launchAfter, decide_eq_false_iff_not, not_lt]
    exact hle
  have hd : tdDays (d * 86400000000 + s * 1000000 + m) = d := by
    unfold tdDays; omega
  have hsec : tdSeconds (d * 86400000000 + s * 1000000 + m) = s := by
    unfold tdSeconds; omega
  have hmic : tdMicroseconds (d * 86400000000 + s * 1000000 + m) = m := by
    unfold tdMicroseconds; omega
  simp only [hours_for, htb, hla, hl, Bool.false_eq_true, if_false]
  rw [hdt, elapsedSeconds, hd, hsec, hmic]
  push_cast
  ring

theorem hours_for_microsecond_divisor_witness :
    wLaunchedAtZero.launched_at = some 0 ∧
    hours_for wLaunchedAtZero 0 500000
      = (((0 : ℚ) * 86400 + (0 : ℚ)) + (500000 : ℚ) / 100000) / 3600 :=
  ⟨rfl,
   hours_for_microsecond_divisor wLaunchedAtZero 0 500000 0 0 0 500000 rfl
     (fun t ht => absurd ht (by simp [wLaunchedAtZero, wRunning]))
     (by norm_num) (by norm_num) (by norm_num) (by norm_num) (by norm_num)
     (by norm_num [effective_stop, wLaunchedAtZero, wRunning])⟩

/-- C4 counterexample: an instance launched at the window start with no
termination over a half-second window is billed 5/3600 hours, not the
window duration 500000 microseconds = 1/7200 hours. -/
theorem hours_for_full_window_counterexample :
    wLaunchedAtZero.launched_at = some 0 ∧
    wLaunchedAtZero.terminated_at = none ∧
    hours_for wLaunchedAtZero 0 500000
      ≠ (((500000 : ℚ) - 0) / 1000000) / 3600 := by
  refine ⟨rfl, rfl, ?_⟩
  norm_num [hours_for, wLaunchedAtZero, wRunning, termBefore, launchAfter,
    effective_stop, elapsedSeconds, tdDays, tdSeconds, tdMicroseconds]

/-- C4 amended: for an instance launched at or before the window start with
no termination, the hours calculator returns exactly the window duration in
hours whenever that duration is a whole number of seconds (for windows with
a fractional-second component the 100000 divisor distorts the result, see
the counterexample). -/
theorem hours_for_full_window (inst : Instance) (ps pe l : ℤ)
    (hl : inst.launched_at = some l) (hterm : inst.terminated_at = none)
    (hls : l ≤ ps) (hwin : ps < pe)
    (hwhole : (pe - ps) % 1000000 = 0) :
    hours_for inst ps pe = (((pe : ℚ) - (ps : ℚ)) / 1000000) / 3600 := by
  have hla : launchAfter (some l) pe = false := by
    simp only [launchAfter, decide_eq_false_iff_not, not_lt]
    omega
  have hmax : max l ps = ps := max_eq_right hls
  simp only [hours_for, hl, hterm, termBefore, hla, Bool.false_eq_true,
    if_false, effective_stop, hmax]
  obtain ⟨k, hk⟩ : ∃ k : ℤ, pe - ps = 1000000 * k :=
    Int.dvd_of_emod_eq_zero hwhole
  have hmic : tdMicroseconds (pe - ps) = 0 := by
    unfold tdMicroseconds
    omega
  have hval : (tdDays (pe - ps) * 3600 * 24 + tdSeconds (pe - ps)) * 1000000
      = pe - ps := by
    unfold tdDays tdSeconds
    rw [hk]
    omega
  simp only [elapsedSeconds, hmic]
  have hq : ((tdDays (pe - ps) * 3600 * 24 + tdSeconds (pe - ps) : ℤ) : ℚ)
      = (((pe : ℚ) - (ps : ℚ))) / 1000000 := by
    rw [eq_div_iff (by norm_num : (1000000 : ℚ) ≠ 0)]
    have hc := congrArg (fun z : ℤ => (z : ℚ)) hval
    push_cast at hc ⊢
    linarith [hc]
  rw [hq]
  norm_num

theorem hours_for_full_window_witness :
    wRunning.launched_at = some 21600000000 ∧ wRunning.terminated_at = none ∧
    hours_for wRunning 21600000000 108000000000
      = (((108000000000 : ℚ) - 21600000000) / 1000000) / 3600 :=
  ⟨rfl, rfl,
   hours_for_full_window wRunning 21600000000 108000000000 21600000000
     rfl rfl (by norm_num) (by norm_num) (by norm_num)⟩

/-! ## Theorems about flavor resolution and the aggregation loop -/

theorem except_pure_eq_ok {ε α : Type} (a : α) :
    (pure a : Except ε α) = Except.ok a := rfl

theorem except_bind_ok {ε α β : Type} (a : α) (f : α → Except ε β) :
    (Except.ok a >>= f) = f a := rfl

theorem except_bind_error {ε α β : Type} (e : ε) (f : α → Except ε β) :
    ((Except.error e : Except ε α) >>= f) = Except.error e := rfl

theorem get_flavor_skip (catalog : Catalog) (inst : Instance)
    (cache : FlavorCache)
    (hemb : inst.embedded_flavor = none) (hdel : inst.deleted = true)
    (hsound : ∀ k f, cache.lookup k = some f → catalog k = some f)
    (hcat : catalog inst.instance_type_id = none) :
    get_flavor catalog inst cache = .ok (none, cache) := by
  unfold get_flavor
  rw [hemb, hdel]
  cases hc : cache.lookup inst.instance_type_id with
  | some f =>
    have := hsound _ _ hc
    rw [hcat] at this
    exact Option.noConfusion this
  | none => simp [hcat]

theorem get_flavor_sound (catalog : Catalog) (inst : Instance)
    (cache : FlavorCache) (res : Option Flavor × FlavorCache)
    (hsound : ∀ k f, cache.lookup k = some f → catalog k = some f)
    (h : get_flavor catalog inst cache = .ok res) :
    ∀ k f, res.2.lookup k = some f → catalog k = some f := by
  unfold get_flavor at h
  cases hemb : inst.embedded_flavor with
  | some f =>
    rw [hemb] at h
    cases h
    exact hsound
  | none =>
    rw [hemb] at h
    cases hdel : inst.deleted with
    | false => rw [hdel] at h; exact Except.noConfusion h
    | true =>
      rw [hdel] at h
      simp only [Bool.not_true, Bool.false_eq_true, if_false] at h
      cases hc : cache.lookup inst.instance_type_id with
      | some f =>
        rw [hc] at h
        cases h
        exact hsound
      | none =>
        rw [hc] at h
        cases hcat : catalog inst.instance_type_id with
        | some f =>
          rw [hcat] at h
          cases h
          intro k g hk
          replace hk : List.lookup k ((inst.instance_type_id, f) :: cache)
              = some g := hk
          by_cases hkey : k = inst.instance_type_id
          · subst hkey
            simp only [List.lookup_cons, beq_self_eq_true, if_true,
              Option.some.injEq] at hk
            rw [hcat, hk]
          · simp only [List.lookup_cons, beq_false_of_ne hkey,
              Bool.false_eq_true, if_false] at hk
            exact hsound k g hk
        | none =>
          rw [hcat] at h
          cases h
          exact hsound

theorem processInstance_skip (catalog : Catalog) (ps pe now : Int)
    (detailed : Bool) (st : Rval × FlavorCache) (inst : Instance)
    (hemb : inst.embedded_flavor = none) (hdel : inst.deleted = true)
    (hsound : ∀ k f, st.2.lookup k = some f → catalog k = some f)
    (hcat : catalog inst.instance_type_id = none) :
    processInstance catalog ps pe now detailed st inst = .ok st := by
  simp only [processInstance,
    get_flavor_skip catalog inst st.2 hemb hdel hsound hcat]

theorem processInstance_sound (catalog : Catalog) (ps pe now : Int)
    (detailed : Bool) (st st' : Rval × FlavorCache) (inst : Instance)
    (hsound : ∀ k f, st.2.lookup k = some f → catalog k = some f)
    (h : processInstance catalog ps pe now detailed st inst = .ok st') :
    ∀ k f, st'.2.lookup k = some f → catalog k = some f := by
  unfold processInstance at h
  cases hgf : get_flavor catalog inst st.2 with
  | error e =>
    simp only [hgf] at h
    exact Except.noConfusion h
  | ok res =>
    have hres := get_flavor_sound catalog inst st.2 res hsound hgf
    obtain ⟨flavorOpt, cache⟩ := res
    simp only [hgf] at h
    cases flavorOpt with
    | none =>
      cases h
      exact hres
    | some flavor =>
      simp only at h
      cases hsu : serverUsageFor inst flavor
          (hours_for inst ps pe) now with
      | error e =>
        simp only [hsu] at h
        exact Except.noConfusion h
      | ok u =>
        simp only [hsu] at h
        cases h
        exact hres

theorem foldlM_skip_sound (catalog : Catalog) (ps pe now : Int)
    (detailed : Bool) (inst : Instance)
    (hemb : inst.embedded_flavor = none) (hdel : inst.deleted = true)
    (hcat : catalog inst.instance_type_id = none) :
    ∀ (l1 l2 : List Instance) (st : Rval × FlavorCache),
      (∀ k f, st.2.lookup k = some f → catalog k = some f) →
      (l1 ++ inst :: l2).foldlM
          (processInstance catalog ps pe now detailed) st
        = (l1 ++ l2).foldlM (processInstance catalog ps pe now detailed) st
  | [], l2, st, hsound => by
    simp only [List.nil_append, List.foldlM_cons]
    rw [processInstance_skip catalog ps pe now detailed st inst
      hemb hdel hsound hcat, except_bind_ok]
  | a :: l1, l2, st, hsound => by
    simp only [List.cons_append, List.foldlM_cons]
    cases hpa : processInstance catalog ps pe now detailed st a with
    | error e => rw [except_bind_error, except_bind_error]
    | ok st' =>
      rw [except_bind_ok, except_bind_ok]
      exact foldlM_skip_sound catalog ps pe now detailed inst hemb hdel hcat
        l1 l2 st'
        (processInstance_sound catalog ps pe now detailed st st' a hsound hpa)

/-- C5: an instance whose legacy flavor lookup hits `FlavorNotFound`
(no embedded flavor, marked deleted, absent from the catalog) is excluded
from the report entirely: the result equals the report computed without the
instance, so it adds no totals, no detail entry, and no error. -/
theorem flavor_not_found_excluded (catalog : Catalog) (ps pe now : Int)
    (detailed : Bool) (l1 l2 : List Instance) (inst : Instance)
    (hemb : inst.embedded_flavor = none) (hdel : inst.deleted = true)
    (hcat : catalog inst.instance_type_id = none) :
    tenant_usages_for_period catalog ps pe now detailed (l1 ++ inst :: l2)
      = tenant_usages_for_period catalog ps pe now detailed (l1 ++ l2) := by
  unfold tenant_usages_for_period
  rw [foldlM_skip_sound catalog ps pe now detailed inst hemb hdel hcat
    l1 l2 ([], []) (fun k f hk => by simp [List.lookup] at hk)]

theorem flavor_not_found_excluded_witness :
    wLegacyDeleted.embedded_flavor = none ∧ wLegacyDeleted.deleted = true ∧
    tenant_usages_for_period (fun _ => none) 0 86400000000 86400000000 true
        [wLegacyDeleted]
      = tenant_usages_for_period (fun _ => none) 0 86400000000 86400000000
          true [] :=
  ⟨rfl, rfl,
   flavor_not_found_excluded (fun _ => none) 0 86400000000 86400000000 true
     [] [] wLegacyDeleted rfl rfl rfl⟩

/-- C10 (code bug): for an instance that never launched but whose flavor
resolves, the hours calculator itself returns 0, yet the aggregation loop
raises (`now - None` in the uptime computation) instead of emitting a
0-hour entry. -/
theorem missing_launch_raises_in_uptime :
    hours_for wNeverLaunched 0 86400000000 = 0 ∧
    wNeverLaunched.embedded_flavor = some wFlavor ∧
    tenant_usages_for_period (fun _ => none) 0 86400000000 86400000000 true
        [wNeverLaunched]
      = .error .typeError :=
  ⟨rfl, rfl, rfl⟩

/-! ## C2: totals match the detail lists -/

theorem emptySummary_consistent (tid : String) (ps pe : Int) :
    summaryConsistent (emptySummary tid true ps pe) :=
  ⟨[], by simp [emptySummary], by simp [emptySummary], by simp [emptySummary],
   by simp [emptySummary], by simp [emptySummary]⟩

theorem accumulate_consistent (u : ServerUsage) (s : Summary)
    (hs : summaryConsistent s) : summaryConsistent (accumulate true u s) := by
  obtain ⟨l, hl, h1, h2, h3, h4⟩ := hs
  refine ⟨l ++ [u], ?_, ?_, ?_, ?_, ?_⟩
  · simp [accumulate, hl]
  · simp [accumulate, h1]
  · simp [accumulate, h2]
  · simp [accumulate, h3]
  · simp [accumulate, h4]

theorem updateRval_consistent (tid : String) (f : Summary → Summary)
    (hf : ∀ s, summaryConsistent s → summaryConsistent (f s)) :
    ∀ r : Rval, (∀ p ∈ r, summaryConsistent p.2) →
      ∀ p ∈ updateRval tid f r, summaryConsistent p.2
  | [], _, p, hp => by simp [updateRval] at hp
  | (k, s) :: rest, hinv, p, hp => by
    simp only [updateRval] at hp
    by_cases hk : k = tid
    · rw [if_pos hk] at hp
      rcases List.mem_cons.mp hp with h1 | h2
      · rw [h1]
        exact hf s (hinv (k, s) (List.mem_cons_self _ _))
      · exact hinv p (List.mem_cons_of_mem _ h2)
    · rw [if_neg hk] at hp
      rcases List.mem_cons.mp hp with h1 | h2
      · rw [h1]
        exact hinv (k, s) (List.mem_cons_self _ _)
      · exact updateRval_consistent tid f hf rest
          (fun q hq => hinv q (List.mem_cons_of_mem _ hq)) p h2

theorem processInstance_consistent (catalog : Catalog) (ps pe now : Int)
    (st st' : Rval × FlavorCache) (inst : Instance)
    (hinv : ∀ p ∈ st.1, summaryConsistent p.2)
    (h : processInstance catalog ps pe now true st inst = .ok st') :
    ∀ p ∈ st'.1, summaryConsistent p.2 := by
  unfold processInstance at h
  cases hgf : get_flavor catalog inst st.2 with
  | error e =>
    simp only [hgf] at h
    exact Except.noConfusion h
  | ok res =>
    obtain ⟨flavorOpt, cache⟩ := res
    simp only [hgf] at h
    cases flavorOpt with
    | none =>
      cases h
      exact hinv
    | some flavor =>
      simp only at h
      cases hsu : serverUsageFor inst flavor (hours_for inst ps pe) now with
      | error e =>
        simp only [hsu] at h
        exact Except.noConfusion h
      | ok u =>
        simp only [hsu] at h
        cases h
        apply updateRval_consistent u.tenant_id (accumulate true u)
          (fun s hs => accumulate_consistent u s hs)
        intro p hp
        by_cases hnew : (st.1.lookup u.tenant_id).isNone
        · rw [if_pos hnew] at hp
          rcases List.mem_append.mp hp with h1 | h2
          · exact hinv p h1
          · rcases List.mem_singleton.mp h2 with rfl
            exact emptySummary_consistent u.tenant_id ps pe
        · rw [if_neg hnew] at hp
          exact hinv p hp

theorem foldlM_consistent (catalog : Catalog) (ps pe now : Int) :
    ∀ (l : List Instance) (st out : Rval × FlavorCache),
      (∀ p ∈ st.1, summaryConsistent p.2) →
      l.foldlM (processInstance catalog ps pe now true) st = .ok out →
      ∀ p ∈ out.1, summaryConsistent p.2
  | [], st, out, hinv, h => by
    simp only [List.foldlM_nil] at h
    cases h
    exact hinv
  | a :: l, st, out, hinv, h => by
    simp only [List.foldlM_cons] at h
    cases hpa : processInstance catalog ps pe now true st a with
    | error e =>
      rw [hpa, except_bind_error] at h
      exact Except.noConfusion h
    | ok st' =>
      rw [hpa, except_bind_ok] at h
      exact foldlM_consistent catalog ps pe now l st' out
        (processInstance_consistent catalog ps pe now st st' a hinv hpa) h

/-- C2: in a detailed run, every returned tenant summary's `total_hours` is
exactly the sum of `hours` over the entries of its detail list, and each of
`total_vcpus_usage`, `total_memory_mb_usage`, `total_local_gb_usage` is the
sum over the same entries of hours times the corresponding shape attribute
(vcpus, memory_mb, root_gb+ephemeral_gb as `local_gb`). -/
theorem tenant_totals_match_details (catalog : Catalog) (ps pe now : Int)
    (instances : List Instance) (out : List Summary)
    (h : tenant_usages_for_period catalog ps pe now true instances
      = .ok out) :
    ∀ s ∈ out, summaryConsistent s := by
  unfold tenant_usages_for_period at h
  cases hf : instances.foldlM (processInstance catalog ps pe now true)
      ([], []) with
  | error e =>
    rw [hf] at h
    exact Except.noConfusion h
  | ok st =>
    rw [hf] at h
    cases h
    intro s hs
    obtain ⟨p, hp, rfl⟩ := List.mem_map.mp hs
    exact foldlM_consistent catalog ps pe now instances ([], []) st
      (fun q hq => by simp at hq) hf p hp

theorem tenant_totals_match_details_witness :
    tenant_usages_for_period (fun _ => none) 0 7200000000 7200000000 true
        [wTerminated] = .ok [wSummary] ∧
    ∀ s ∈ [wSummary], summaryConsistent s := by
  have h : tenant_usages_for_period (fun _ => none) 0 7200000000 7200000000
      true [wTerminated] = .ok [wSummary] := by
    norm_num [tenant_usages_for_period, List.foldlM, processInstance,
      get_flavor, serverUsageFor, subTime, hours_for, termBefore, launchAfter,
      effective_stop, elapsedSeconds, tdDays, tdSeconds, tdMicroseconds,
      updateRval, emptySummary, accumulate, wTerminated, wRunning, wFlavor,
      wSummary, wUsage, List.lookup]
  exact ⟨h, tenant_totals_match_details (fun _ => none) 0 7200000000
    7200000000 [wTerminated] [wSummary] h⟩

/-! ## Theorems about the request handlers -/

/-- C6: when the parsed start is not strictly before the parsed end, both
handlers reject with the `HTTPBadRequest` start-after-end explanation; the
result is the same for every instance-lookup collaborator, so no instance
lookup is consulted. -/
theorem start_not_before_end_rejected (lookup : Lookup) (catalog : Catalog)
    (now s e : Int) (detailed : Bool) (tid : String)
    (h : ¬ s < e) :
    index lookup catalog now (some s) (some e) detailed
        = .error (.badRequest startAfterEndMsg) ∧
    show' lookup catalog now tid (some s) (some e) detailed
        = .error (.badRequest startAfterEndMsg) := by
  constructor
  · simp [index, get_datetime_range, h]
  · simp [show', get_datetime_range, h]

theorem start_not_before_end_rejected_witness :
    ¬ (5 : Int) < 3 ∧
    index (fun _ _ _ => []) (fun _ => none) 0 (some 5) (some 3) true
        = .error (.badRequest startAfterEndMsg) ∧
    show' (fun _ _ _ => []) (fun _ => none) 0 "tenant-a" (some 5) (some 3)
        true = .error (.badRequest startAfterEndMsg) :=
  ⟨by norm_num,
   (start_not_before_end_rejected (fun _ _ _ => []) (fun _ => none) 0 5 3
     true "tenant-a" (by norm_num)).1,
   (start_not_before_end_rejected (fun _ _ _ => []) (fun _ => none) 0 5 3
     true "tenant-a" (by norm_num)).2⟩

/-- C7: when the parsed stop lies after the current time, both handlers
silently replace it by `now` before invoking the instance lookup: the
lookup and the hours aggregation both receive `now` as the window stop. -/
theorem future_stop_clipped (lookup : Lookup) (catalog : Catalog)
    (now s e : Int) (detailed : Bool) (tid : String)
    (hse : s < e) (hnow : now < e) :
    index lookup catalog now (some s) (some e) detailed
        = (match tenant_usages_for_period catalog s now now detailed
              (lookup s now none) with
           | .ok usages => .ok usages
           | .error err => .error (.internal err)) ∧
    show' lookup catalog now tid (some s) (some e) detailed
        = (match tenant_usages_for_period catalog s now now true
              (lookup s now (some tid)) with
           | .ok usage => .ok usage.head?
           | .error err => .error (.internal err)) := by
  constructor
  · simp [index, get_datetime_range, hse, hnow]
  · simp [show', get_datetime_range, hse, hnow]

theorem future_stop_clipped_witness :
    (0 : Int) < 10 ∧ (5 : Int) < 10 ∧
    index (fun _ _ _ => []) (fun _ => none) 5 (some 0) (some 10) true
        = (match tenant_usages_for_period (fun _ => none) 0 5 5 true [] with
           | .ok usages => .ok usages
           | .error err => .error (.internal err)) :=
  ⟨by norm_num, by norm_num,
   (future_stop_clipped (fun _ _ _ => []) (fun _ => none) 5 0 10 true
     "tenant-a" (by norm_num) (by norm_num)).1⟩

/-- C8: a `show` request for a tenant whose instance lookup yields no
qualifying instances returns the empty structure (`none`), not an error. -/
theorem show_empty_tenant_ok (lookup : Lookup) (catalog : Catalog)
    (now : Int) (tid : String) (s e : Int) (detailed : Bool)
    (hse : s < e)
    (hempty : lookup s (if e > now then now else e) (some tid) = []) :
    show' lookup catalog now tid (some s) (some e) detailed = .ok none := by
  simp [show', get_datetime_range, hse, hempty, tenant_usages_for_period,
    except_pure_eq_ok]

theorem show_empty_tenant_ok_witness :
    (0 : Int) < 10 ∧
    show' (fun _ _ _ => []) (fun _ => none) 5 "tenant-a" (some 0) (some 10)
        true = .ok none :=
  ⟨by norm_num,
   show_empty_tenant_ok (fun _ _ _ => []) (fun _ => none) 5 "tenant-a" 0 10
     true (by norm_num) rfl⟩

end SimpleTenantUsage
